import Mathlib

set_option maxHeartbeats 1000000

/-!
Shallow embedding of the RAG pipeline of this repository
(`src/vectorstore/build_rag_clean.py` and `src/chat.py`).

Texts are modelled as lists of characters; the Python slice `texto[a:b]`
becomes `(texto.drop a).take (b - a)`.  Machine integers do not overflow in
the modelled code (all quantities are small list offsets), so `Nat`/`Int`
are used directly.  The external FAISS index and the LM Studio HTTP
services are collaborators outside this repository: they are modelled by
their observable input/output (the list of row indices returned by a
search, an `Option`/`Except` result for a service call), exactly as the
orchestration code consumes them.
-/

/-- Python slice `texto[inicio : inicio + tamano]` on a list of characters. -/
def rebanada (texto : List Char) (inicio tamano : Nat) : List Char :=
  (texto.drop inicio).take tamano

/-- `dividir_texto`s loop (build_rag_clean.py lines 74-86), with the loop
turned into recursion on `inicio`:
`while inicio < len(texto): fin = inicio + tamano; chunks.append(texto[inicio:fin]);
inicio = max(fin - overlap, inicio + 1); if fin >= len(texto): break`.
In Python `fin - overlap` may be negative with `max` picking `inicio + 1`;
Nat subtraction truncates at 0 and the `max` then also picks `inicio + 1`,
so the two agree. -/
def dividirGo (texto : List Char) (tamano overlap inicio : Nat) : List (List Char) :=
  if inicio < texto.length then
    if texto.length ≤ inicio + tamano then
      [rebanada texto inicio tamano]
    else
      rebanada texto inicio tamano ::
        dividirGo texto tamano overlap (max (inicio + tamano - overlap) (inicio + 1))
  else []
termination_by texto.length - inicio
decreasing_by
  have h1 : inicio + 1 ≤ max (inicio + tamano - overlap) (inicio + 1) := le_max_right _ _
  omega

/-- `dividir_texto(texto, tamano, overlap)` (build_rag_clean.py lines 74-86). -/
def dividir_texto (texto : List Char) (tamano overlap : Nat) : List (List Char) :=
  dividirGo texto tamano overlap 0

/-- The sequence of start offsets (`inicio` values) at which `dividir_texto`
cuts a text of length `n`: same recursion as `dividirGo`, recording the
offsets instead of the slices. -/
def dividirStarts (n tamano overlap inicio : Nat) : List Nat :=
  if inicio < n then
    if n ≤ inicio + tamano then
      [inicio]
    else
      inicio :: dividirStarts n tamano overlap (max (inicio + tamano - overlap) (inicio + 1))
  else []
termination_by n - inicio
decreasing_by
  have h1 : inicio + 1 ≤ max (inicio + tamano - overlap) (inicio + 1) := le_max_right _ _
  omega

theorem dividirGo_eq_map_slice (texto : List Char) (tamano overlap : Nat) :
    ∀ inicio, dividirGo texto tamano overlap inicio
      = (dividirStarts texto.length tamano overlap inicio).map
          (fun s => rebanada texto s tamano) := by
  intro inicio
  induction inicio using dividirStarts.induct texto.length tamano overlap with
  | case1 inicio h1 h2 =>
      rw [dividirGo, dividirStarts]
      simp [h1, h2]
  | case2 inicio h1 h2 ih =>
      rw [dividirGo, dividirStarts]
      simp only [if_pos h1, if_neg h2, List.map_cons]
      rw [ih]
  | case3 inicio h1 =>
      rw [dividirGo, dividirStarts]
      simp [h1]

theorem dividir_texto_eq_map (texto : List Char) (tamano overlap : Nat) :
    dividir_texto texto tamano overlap
      = (dividirStarts texto.length tamano overlap 0).map
          (fun s => rebanada texto s tamano) :=
  dividirGo_eq_map_slice texto tamano overlap 0

theorem length_rebanada (texto : List Char) (inicio tamano : Nat) :
    (rebanada texto inicio tamano).length = min tamano (texto.length - inicio) := by
  simp [rebanada]

theorem dividirStarts_length_le (n t o : Nat) :
    ∀ inicio, (dividirStarts n t o inicio).length ≤ n - inicio := by
  intro inicio
  induction inicio using dividirStarts.induct n t o with
  | case1 x h1 h2 =>
      rw [dividirStarts]
      simp only [if_pos h1, if_pos h2, List.length_singleton]
      omega
  | case2 x h1 h2 ih =>
      rw [dividirStarts]
      simp only [if_pos h1, if_neg h2, List.length_cons]
      have h3 : x + 1 ≤ max (x + t - o) (x + 1) := le_max_right _ _
      omega
  | case3 x h1 =>
      rw [dividirStarts]
      simp [h1]

theorem dividirStarts_head (n t o inicio : Nat) (h : inicio < n) :
    ∃ r, dividirStarts n t o inicio = inicio :: r := by
  rw [dividirStarts]
  by_cases h2 : n ≤ inicio + t
  · exact ⟨[], by simp [h, h2]⟩
  · exact ⟨dividirStarts n t o (max (inicio + t - o) (inicio + 1)), by simp [h, h2]⟩

theorem dividirStarts_chain_next (n t o : Nat) :
    ∀ inicio, List.Chain' (fun s s' => s' = max (s + t - o) (s + 1))
      (dividirStarts n t o inicio) := by
  intro inicio
  induction inicio using dividirStarts.induct n t o with
  | case1 x h1 h2 =>
      rw [dividirStarts]
      simp [h1, h2]
  | case2 x h1 h2 ih =>
      rw [dividirStarts]
      simp only [if_pos h1, if_neg h2]
      rw [List.chain'_cons']
      refine ⟨?_, ih⟩
      intro y hy
      by_cases h3 : max (x + t - o) (x + 1) < n
      · obtain ⟨r, hr⟩ := dividirStarts_head n t o _ h3
        rw [hr] at hy
        simp at hy
        omega
      · rw [dividirStarts] at hy
        simp [h3] at hy
  | case3 x h1 =>
      rw [dividirStarts]
      simp [h1]

theorem dividirStarts_mem (n t o : Nat) :
    ∀ inicio s, s ∈ dividirStarts n t o inicio → inicio ≤ s ∧ s < n := by
  intro inicio
  induction inicio using dividirStarts.induct n t o with
  | case1 x h1 h2 =>
      intro s hs
      rw [dividirStarts] at hs
      simp [h1, h2] at hs
      omega
  | case2 x h1 h2 ih =>
      intro s hs
      rw [dividirStarts] at hs
      simp only [if_pos h1, if_neg h2, List.mem_cons] at hs
      rcases hs with hs | hs
      · omega
      · have := ih s hs
        have h3 : x + 1 ≤ max (x + t - o) (x + 1) := le_max_right _ _
        omega
  | case3 x h1 =>
      intro s hs
      rw [dividirStarts] at hs
      simp [h1] at hs

theorem dividirStarts_cover (n t o : Nat) (ht : 1 ≤ t) :
    ∀ inicio i, inicio ≤ i → i < n →
      ∃ s ∈ dividirStarts n t o inicio, s ≤ i ∧ i < s + t := by
  intro inicio
  induction inicio using dividirStarts.induct n t o with
  | case1 x h1 h2 =>
      intro i hxi hin
      refine ⟨x, ?_, hxi, by omega⟩
      rw [dividirStarts]
      simp [h1, h2]
  | case2 x h1 h2 ih =>
      intro i hxi hin
      by_cases hfin : i < x + t
      · refine ⟨x, ?_, hxi, hfin⟩
        obtain ⟨r, hr⟩ := dividirStarts_head n t o x h1
        rw [hr]
        simp
      · have hnext : max (x + t - o) (x + 1) ≤ i := by omega
        obtain ⟨s, hs, h3, h4⟩ := ih i hnext hin
        refine ⟨s, ?_, h3, h4⟩
        rw [dividirStarts]
        simp only [if_pos h1, if_neg h2, List.mem_cons]
        exact Or.inr hs
  | case3 x h1 =>
      intro i hxi hin
      omega

theorem dividirStarts_overlap (n t o : Nat) (ho : o < t) :
    ∀ inicio, List.Chain' (fun s s' => min (s + t) n = s' + o)
      (dividirStarts n t o inicio) := by
  intro inicio
  induction inicio using dividirStarts.induct n t o with
  | case1 x h1 h2 =>
      rw [dividirStarts]
      simp [h1, h2]
  | case2 x h1 h2 ih =>
      rw [dividirStarts]
      simp only [if_pos h1, if_neg h2]
      rw [List.chain'_cons']
      refine ⟨?_, ih⟩
      intro y hy
      by_cases h3 : max (x + t - o) (x + 1) < n
      · obtain ⟨r, hr⟩ := dividirStarts_head n t o _ h3
        rw [hr] at hy
        simp at hy
        omega
      · rw [dividirStarts] at hy
        simp [h3] at hy
  | case3 x h1 =>
      rw [dividirStarts]
      simp [h1]

theorem starts_2000 : dividirStarts 2000 1000 200 0 = [0, 800, 1600] := by
  rw [dividirStarts]; norm_num [Nat.max_def]
  rw [dividirStarts]; norm_num [Nat.max_def]
  rw [dividirStarts]; norm_num

theorem longitudes_2000 :
    (dividir_texto (List.replicate 2000 'A') 1000 200).map List.length
      = [1000, 1000, 400] := by
  have hlen : (List.replicate 2000 'A').length = 2000 := List.length_replicate 2000 'A'
  rw [dividir_texto_eq_map, hlen, starts_2000]
  simp only [List.map_cons, List.map_nil, length_rebanada]
  norm_num

/-- C2 (counterexample): on the four-character text "abcd" with L = 3, O = 1
the chunker produces chunks "abc" and "cd", cutting at offsets 0 and 2.
The claim says chunk 1 begins at min(end of chunk 0 − O, start of chunk 0 + 1)
= min(3 − 1, 0 + 1) = 1, but the code puts it at 2. -/
theorem C2_contraejemplo :
    dividir_texto ['a', 'b', 'c', 'd'] 3 1 = [['a', 'b', 'c'], ['c', 'd']]
    ∧ dividirStarts 4 3 1 0 = [0, 2]
    ∧ min (0 + 3 - 1) (0 + 1) = 1
    ∧ (2 : Nat) ≠ 1 := by
  have hs : dividirStarts 4 3 1 0 = [0, 2] := by
    rw [dividirStarts]; norm_num [Nat.max_def]
    rw [dividirStarts]; norm_num
  refine ⟨?_, hs, by norm_num, by norm_num⟩
  have hlen : (['a', 'b', 'c', 'd'] : List Char).length = 4 := rfl
  rw [dividir_texto_eq_map, hlen, hs]
  decide

/-- C2 (amended): for every text and parameters L, O with O < L, the chunks
are the slices of the text at the recorded start offsets, and chunk k+1
begins at max(end of chunk k − O, start of chunk k + 1) — `max`, not the
claimed `min`. -/
theorem C2_regla_avance (texto : List Char) (tamano overlap : Nat)
    (h : overlap < tamano) :
    dividir_texto texto tamano overlap
      = (dividirStarts texto.length tamano overlap 0).map
          (fun s => rebanada texto s tamano)
    ∧ List.Chain' (fun s s' => s' = max (s + tamano - overlap) (s + 1))
        (dividirStarts texto.length tamano overlap 0) :=
  ⟨dividir_texto_eq_map texto tamano overlap,
   dividirStarts_chain_next texto.length tamano overlap 0⟩

theorem C2_regla_avance_testigo :
    1 < 3
    ∧ (dividir_texto ['a', 'b', 'c', 'd'] 3 1
         = (dividirStarts 4 3 1 0).map (fun s => rebanada ['a', 'b', 'c', 'd'] s 3)
       ∧ List.Chain' (fun s s' => s' = max (s + 3 - 1) (s + 1))
           (dividirStarts 4 3 1 0)) :=
  ⟨by norm_num, C2_regla_avance ['a', 'b', 'c', 'd'] 3 1 (by norm_num)⟩

/-- C3 (counterexample): one document of 2000 identical characters with
L = 1000, O = 200 gives three chunks of lengths 1000, 1000, 400 — not
1000, 1000, 200 as the claim states (the last chunk spans offsets
1600..2000). -/
theorem C3_contraejemplo :
    (dividir_texto (List.replicate 2000 'A') 1000 200).map List.length
      = [1000, 1000, 400]
    ∧ [1000, 1000, 400] ≠ [1000, 1000, 200] :=
  ⟨longitudes_2000, by decide⟩

/-- C3 (amended): one document of 2000 identical characters with L = 1000,
O = 200 produces exactly 3 chunks, of lengths 1000, 1000 and 400, at the
offsets 0, 800, 1600 determined by the forward-progress rule. -/
theorem C3_ejemplo_2000 :
    dividirStarts 2000 1000 200 0 = [0, 800, 1600]
    ∧ (dividir_texto (List.replicate 2000 'A') 1000 200).map List.length
        = [1000, 1000, 400] :=
  ⟨starts_2000, longitudes_2000⟩

/-- C4: with O < L, every character position i of the text is covered by at
least one produced chunk (that chunk carries the very character texto[i]),
and each pair of consecutive chunks overlaps by exactly O characters (in
particular every pair except possibly the one involving the last chunk). -/
theorem C4_cobertura (texto : List Char) (tamano overlap : Nat)
    (h : overlap < tamano) :
    (∀ i, i < texto.length →
       ∃ s ∈ dividirStarts texto.length tamano overlap 0,
         rebanada texto s tamano ∈ dividir_texto texto tamano overlap
         ∧ s ≤ i ∧ i < s + tamano
         ∧ (rebanada texto s tamano)[i - s]? = texto[i]?)
    ∧ List.Chain' (fun s s' => min (s + tamano) texto.length = s' + overlap)
        (dividirStarts texto.length tamano overlap 0) := by
  constructor
  · intro i hi
    obtain ⟨s, hs, h1, h2⟩ :=
      dividirStarts_cover texto.length tamano overlap (by omega) 0 i (Nat.zero_le i) hi
    refine ⟨s, hs, ?_, h1, h2, ?_⟩
    · rw [dividir_texto_eq_map]
      exact List.mem_map_of_mem _ hs
    · rw [rebanada, List.getElem?_take_of_lt (by omega), List.getElem?_drop]
      congr 1
      omega
  · exact dividirStarts_overlap texto.length tamano overlap h 0

theorem C4_cobertura_testigo :
    1 < 2
    ∧ ((∀ i, i < 3 →
          ∃ s ∈ dividirStarts 3 2 1 0,
            rebanada ['a', 'b', 'c'] s 2 ∈ dividir_texto ['a', 'b', 'c'] 2 1
            ∧ s ≤ i ∧ i < s + 2
            ∧ (rebanada ['a', 'b', 'c'] s 2)[i - s]? = (['a', 'b', 'c'] : List Char)[i]?)
       ∧ List.Chain' (fun s s' => min (s + 2) 3 = s' + 1) (dividirStarts 3 2 1 0)) :=
  ⟨by norm_num, C4_cobertura ['a', 'b', 'c'] 2 1 (by norm_num)⟩

/-- C5: for every text, L ≥ 1 and any O (including O ≥ L) the chunker is a
total function whose chunk count is bounded by the length of the text, and
the start offsets of successive chunks strictly increase. -/
theorem C5_terminacion (texto : List Char) (tamano overlap : Nat)
    (h : 1 ≤ tamano) :
    (dividir_texto texto tamano overlap).length ≤ texto.length
    ∧ List.Chain' (· < ·) (dividirStarts texto.length tamano overlap 0) := by
  constructor
  · rw [dividir_texto_eq_map, List.length_map]
    have := dividirStarts_length_le texto.length tamano overlap 0
    omega
  · exact (dividirStarts_chain_next texto.length tamano overlap 0).imp
      (fun a b hab => by omega)

theorem C5_terminacion_testigo :
    1 ≤ 1
    ∧ ((dividir_texto ['x'] 1 5).length ≤ 1
       ∧ List.Chain' (· < ·) (dividirStarts 1 1 5 0)) :=
  ⟨by norm_num, C5_terminacion ['x'] 1 5 (by norm_num)⟩

/-- The whitespace characters treated by Python `str.isspace`/`str.strip`
that occur in text content (space, tab, newline, carriage return, vertical
tab, form feed); restricted to ASCII. -/
def isPySpace (c : Char) : Bool :=
  c = ' ' || c = '\t' || c = '\n' || c = '\r' || c = '\x0b' || c = '\x0c'

/-- Python `texto.strip()`: drop this whitespace from both ends. -/
def pyStrip (l : List Char) : List Char :=
  ((l.dropWhile isPySpace).reverse.dropWhile isPySpace).reverse

theorem pyStrip_eq_nil_iff (l : List Char) :
    pyStrip l = [] ↔ ∀ c ∈ l, isPySpace c = true := by
  rw [pyStrip, List.reverse_eq_nil_iff, List.dropWhile_eq_nil_iff]
  constructor
  · intro h c hc
    have hsplit := List.takeWhile_append_dropWhile (p := isPySpace) (l := l)
    rw [← hsplit] at hc
    rcases List.mem_append.mp hc with hc | hc
    · exact List.mem_takeWhile_imp hc
    · exact h c (List.mem_reverse.mpr hc)
  · intro h c hc
    exact h c ((List.dropWhile_sublist isPySpace).subset (List.mem_reverse.mp hc))

/-- One record of `chunks.json` (build_rag_clean.py lines 100-104):
`{"chunk_id": ..., "fuente": ..., "texto": chunk.strip()}`. -/
structure Metadato where
  chunk_id : Nat
  fuente : String
  texto : List Char
deriving DecidableEq

/-- The chunking loop of build_rag_clean.py lines 92-104: a document whose
stripped text is empty is skipped (`continue`); otherwise every chunk of
`dividir_texto(texto, tamano=1000, overlap=200)` is appended, tagged with the
source of the document it came from. -/
def chunksConFuente (docs : List (List Char × String)) : List (List Char × String) :=
  docs.flatMap (fun d =>
    if pyStrip d.1 = [] then []
    else (dividir_texto d.1 1000 200).map (fun chunk => (chunk, d.2)))

/-- `todos_los_chunks`: the raw (untrimmed) chunk texts, in order; this is
the list later fed to the embedding service in batches. -/
def todos_los_chunks (docs : List (List Char × String)) : List (List Char) :=
  (chunksConFuente docs).map Prod.fst

/-- `metadatos`: record i carries `chunk_id = i` (the value of
`len(todos_los_chunks) - 1` at the moment of the append), the source, and
the stripped chunk text (`chunk.strip()`). -/
def metadatos (docs : List (List Char × String)) : List Metadato :=
  (chunksConFuente docs).enum.map (fun p => ⟨p.1, p.2.2, pyStrip p.2.1⟩)

theorem chunksConFuente_cons (d : List Char × String) (docs : List (List Char × String)) :
    chunksConFuente (d :: docs)
      = (if pyStrip d.1 = [] then []
         else (dividir_texto d.1 1000 200).map (fun chunk => (chunk, d.2)))
        ++ chunksConFuente docs := by
  simp [chunksConFuente]

/-- `BATCH_SIZE = 32` (build_rag_clean.py line 121). -/
def BATCH_SIZE : Nat := 32

/-- The batched embedding loop (build_rag_clean.py lines 126-143): the chunk
list is processed in slices of `BATCH_SIZE`; a successful service call
appends its vectors (`embeddings_list.extend`), an exception breaks the loop
and keeps only the vectors already produced.  The external service is
modelled by its observable result on each batch: `some` vectors, or `none`
for a raised exception. -/
def embeddings_list {V : Type} (service : List (List Char) → Option (List V))
    (chunks : List (List Char)) : List V :=
  if h : chunks = [] then []
  else
    match service (chunks.take BATCH_SIZE) with
    | some batch => batch ++ embeddings_list service (chunks.drop BATCH_SIZE)
    | none => []
termination_by chunks.length
decreasing_by
  have hpos : 0 < chunks.length := List.length_pos.mpr h
  simp only [List.length_drop, BATCH_SIZE]
  omega

/-- `faiss.IndexFlatL2` as this code uses it: an ordered collection of rows;
`index.add(embeddings)` appends the rows in order (build_rag_clean.py lines
159-160). -/
structure IndexFlatL2 (V : Type) where
  rows : List V

def indexAdd {V : Type} (idx : IndexFlatL2 V) (vs : List V) : IndexFlatL2 V :=
  ⟨idx.rows ++ vs⟩

def buildIndex {V : Type} (vs : List V) : IndexFlatL2 V :=
  indexAdd ⟨[]⟩ vs

/-- An embedding service that succeeds exactly on a full batch of 32 texts
(returning one vector per text) and raises on the final short batch. -/
def servicioLote32 : List (List Char) → Option (List Nat) :=
  fun lote => if lote.length = BATCH_SIZE then some (List.replicate BATCH_SIZE 0) else none

theorem dividir_singleton : dividir_texto ['a'] 1000 200 = [['a']] := by
  rw [dividir_texto, dividirGo]
  norm_num
  decide

theorem chunks_33 :
    chunksConFuente (List.replicate 33 (['a'], "doc.txt"))
      = List.replicate 33 ((['a'] : List Char), "doc.txt") := by
  have key : ∀ n, chunksConFuente (List.replicate n (['a'], "doc.txt"))
      = List.replicate n ((['a'] : List Char), "doc.txt") := by
    intro n
    induction n with
    | zero => rfl
    | succ k ih =>
        rw [List.replicate_succ, chunksConFuente_cons, ih, if_neg (by decide),
          dividir_singleton]
        rw [List.map_cons, List.map_nil, List.singleton_append, ← List.replicate_succ]
  exact key 33

theorem emb_33 :
    embeddings_list servicioLote32 (List.replicate 33 (['a'] : List Char))
      = List.replicate 32 (0 : Nat) := by
  rw [embeddings_list]
  rw [dif_neg (by decide)]
  rw [List.take_replicate, List.drop_replicate]
  norm_num [servicioLote32, BATCH_SIZE]
  rw [embeddings_list.eq_def]
  rw [dif_neg (by decide)]
  rw [List.take_of_length_le (by decide)]
  norm_num [servicioLote32, BATCH_SIZE]

/-- C1: the claimed invariant fails on a build in which an embedding batch
call fails partway.  With 33 one-character documents the chunking stage
yields 33 chunks and 33 metadata records; if the first batch of 32 succeeds
and the second batch raises, the loop breaks keeping 32 vectors, the index
receives 32 rows, yet all 33 metadata records are persisted to chunks.json:
index row count 32 ≠ metadata record count 33. -/
theorem C1_desalineacion :
    (buildIndex (embeddings_list servicioLote32
        (todos_los_chunks (List.replicate 33 (['a'], "doc.txt"))))).rows.length = 32
    ∧ (metadatos (List.replicate 33 (['a'], "doc.txt"))).length = 33
    ∧ (32 : Nat) ≠ 33 := by
  refine ⟨?_, ?_, by norm_num⟩
  · rw [todos_los_chunks, chunks_33, List.map_replicate]
    rw [emb_33]
    simp [buildIndex, indexAdd]
  · rw [metadatos, chunks_33]
    simp [List.enum_length]

/-- C6: a document whose text is empty or consists only of whitespace is
skipped by the chunking loop (`if not texto.strip(): continue`): it
contributes no chunk and no metadata record, and the rest of the pipeline is
unaffected. -/
theorem C6_texto_blanco (docs : List (List Char × String)) (texto : List Char)
    (fuente : String) (h : ∀ c ∈ texto, isPySpace c = true) :
    chunksConFuente ((texto, fuente) :: docs) = chunksConFuente docs
    ∧ todos_los_chunks ((texto, fuente) :: docs) = todos_los_chunks docs
    ∧ metadatos ((texto, fuente) :: docs) = metadatos docs := by
  have hstrip : pyStrip texto = [] := (pyStrip_eq_nil_iff texto).mpr h
  have hc : chunksConFuente ((texto, fuente) :: docs) = chunksConFuente docs := by
    rw [chunksConFuente_cons]
    simp [hstrip]
  exact ⟨hc, by rw [todos_los_chunks, todos_los_chunks, hc],
    by rw [metadatos, metadatos, hc]⟩

theorem C6_texto_blanco_testigo :
    (∀ c ∈ ([' ', '\n'] : List Char), isPySpace c = true)
    ∧ (chunksConFuente [([' ', '\n'], "v.txt"), (['a'], "g.txt")]
         = chunksConFuente [(['a'], "g.txt")]
       ∧ todos_los_chunks [([' ', '\n'], "v.txt"), (['a'], "g.txt")]
           = todos_los_chunks [(['a'], "g.txt")]
       ∧ metadatos [([' ', '\n'], "v.txt"), (['a'], "g.txt")]
           = metadatos [(['a'], "g.txt")]) :=
  ⟨by decide, C6_texto_blanco [(['a'], "g.txt")] [' ', '\n'] "v.txt" (by decide)⟩

theorem metadatos_getElem_texto (docs : List (List Char × String)) (i : Nat) :
    ((metadatos docs)[i]?).map Metadato.texto
      = ((todos_los_chunks docs)[i]?).map pyStrip := by
  rw [metadatos, todos_los_chunks]
  rw [List.getElem?_map, List.getElem?_map, List.getElem?_enum]
  cases (chunksConFuente docs)[i]? with
  | none => rfl
  | some p => rfl

theorem starts_1002 : dividirStarts 1002 1000 200 0 = [0, 800] := by
  rw [dividirStarts]; norm_num [Nat.max_def]
  rw [dividirStarts]; norm_num

theorem rebanada_800_espacios :
    rebanada ('a' :: List.replicate 1001 ' ') 800 1000 = List.replicate 202 ' ' := by
  rw [rebanada]
  have h800 : (800 : Nat) = 799 + 1 := rfl
  rw [h800, List.drop_succ_cons, List.drop_replicate, List.take_replicate]
  norm_num

theorem pyStrip_espacios : pyStrip (List.replicate 202 ' ') = [] := by
  refine (pyStrip_eq_nil_iff _).mpr ?_
  intro c hc
  rw [List.eq_of_mem_replicate hc]
  decide

/-- C10: for every build input, the text embedded for row i is the raw
positional slice (`todos_los_chunks`), while the text persisted in metadata
record i is the stripped slice (`chunk.strip()`).  Concretely, on one
document consisting of a letter followed by 1001 spaces, chunk 1 sent to the
embedder is 202 spaces while its persisted `texto` is the empty string, so
the vector at row 1 embeds a different string than record 1 stores. -/
theorem C10_recorte_divergente :
    (∀ docs : List (List Char × String), ∀ i : Nat,
       ((metadatos docs)[i]?).map Metadato.texto
         = ((todos_los_chunks docs)[i]?).map pyStrip)
    ∧ (todos_los_chunks [('a' :: List.replicate 1001 ' ', "doc.txt")])[1]?
        = some (List.replicate 202 ' ')
    ∧ ((metadatos [('a' :: List.replicate 1001 ' ', "doc.txt")])[1]?).map Metadato.texto
        = some []
    ∧ List.replicate 202 (' ' : Char) ≠ ([] : List Char) := by
  have hne : ¬ pyStrip ('a' :: List.replicate 1001 ' ') = [] := by
    intro hfalso
    have := (pyStrip_eq_nil_iff _).mp hfalso 'a' (List.mem_cons_self _ _)
    simp [isPySpace] at this
  have hlen : ('a' :: List.replicate 1001 ' ').length = 1002 := by
    rw [List.length_cons, List.length_replicate]
  have hdiv : dividir_texto ('a' :: List.replicate 1001 ' ') 1000 200
      = [rebanada ('a' :: List.replicate 1001 ' ') 0 1000,
         List.replicate 202 ' '] := by
    rw [dividir_texto_eq_map, hlen, starts_1002, List.map_cons, List.map_cons,
      List.map_nil, rebanada_800_espacios]
  have htodos : (todos_los_chunks [('a' :: List.replicate 1001 ' ', "doc.txt")])[1]?
      = some (List.replicate 202 ' ') := by
    rw [todos_los_chunks, chunksConFuente_cons, if_neg hne, hdiv]
    rfl
  refine ⟨metadatos_getElem_texto, htodos, ?_, by decide⟩
  rw [metadatos_getElem_texto, htodos, Option.map_some', pyStrip_espacios]

/-- The block formatted for one retrieved chunk (chat.py line 76):
`f"--- Fuente: {chunk['fuente']} ---\n{chunk['texto']}"`. -/
def formatBlock (chunk : Metadato) : String :=
  "--- Fuente: " ++ chunk.fuente ++ " ---\n" ++ String.mk chunk.texto

/-- The retrieval loop of `buscar_contexto` (chat.py lines 73-77): for each
row index returned by `index.search`, keep it only if
`idx >= 0 and idx < len(metadatos)`, then look the record up and format it.
The external FAISS search is modelled by the list `I` of row indices it
returned (FAISS pads with the sentinel `-1` when it holds fewer vectors than
requested).  The lookup `metadatos[idx]` is modelled by the optional
`metadatos[idx.toNat]?` so that an out-of-range access would surface as a
dropped result instead of being hidden. -/
def contextos_recuperados (metadatos : List Metadato) : List Int → List String
  | [] => []
  | idx :: resto =>
    if 0 ≤ idx ∧ idx < (metadatos.length : Int) then
      match metadatos[idx.toNat]? with
      | some chunk => formatBlock chunk :: contextos_recuperados metadatos resto
      | none => contextos_recuperados metadatos resto
    else contextos_recuperados metadatos resto

/-- `buscar_contexto` (chat.py lines 62-83): the context string is the
retrieved blocks joined by a blank line (`"\n\n".join`). -/
def buscar_contexto (metadatos : List Metadato) (I : List Int) : String :=
  String.intercalate "\n\n" (contextos_recuperados metadatos I)

theorem contextos_recuperados_spec (metadatos : List Metadato) :
    ∀ I : List Int,
      (contextos_recuperados metadatos I).length
        = (I.filter (fun idx => decide (0 ≤ idx ∧ idx < (metadatos.length : Int)))).length
      ∧ ∀ b ∈ contextos_recuperados metadatos I, ∃ m ∈ metadatos, b = formatBlock m := by
  intro I
  induction I with
  | nil => exact ⟨rfl, by intro b hb; cases hb⟩
  | cons idx resto ih =>
      by_cases hv : 0 ≤ idx ∧ idx < (metadatos.length : Int)
      · have hlt : idx.toNat < metadatos.length := by omega
        rw [contextos_recuperados, if_pos hv, List.getElem?_eq_getElem hlt]
        constructor
        · rw [List.filter_cons_of_pos (by simpa using hv)]
          simp only [List.length_cons, ih.1]
        · intro b hb
          rcases List.mem_cons.mp hb with hb | hb
          · exact ⟨metadatos[idx.toNat], List.getElem_mem hlt, hb⟩
          · exact ih.2 b hb
      · rw [contextos_recuperados, if_neg hv]
        constructor
        · rw [List.filter_cons_of_neg (by simpa using hv), ih.1]
        · exact ih.2

/-- C7: the retriever keeps exactly the indices inside [0, numChunks) — so
every lookup hits a real metadata position and every context block is the
format of an actual record, never fabricated.  When the external index holds
only n vectors, at most n of the k returned entries are non-sentinel
(the others are -1), hence at most n context blocks are assembled; with
k = 4 over an index of fewer than 4 vectors, that is at most that many. -/
theorem C7_filtrado (metadatos : List Metadato) (I : List Int) (n : Nat)
    (hI : (I.filter (fun idx => decide (0 ≤ idx))).length ≤ n) :
    (contextos_recuperados metadatos I).length
      = (I.filter (fun idx => decide (0 ≤ idx ∧ idx < (metadatos.length : Int)))).length
    ∧ (contextos_recuperados metadatos I).length ≤ n
    ∧ ∀ b ∈ contextos_recuperados metadatos I, ∃ m ∈ metadatos, b = formatBlock m := by
  obtain ⟨h1, h2⟩ := contextos_recuperados_spec metadatos I
  refine ⟨h1, ?_, h2⟩
  rw [h1]
  refine le_trans (List.Sublist.length_le ?_) hI
  apply List.monotone_filter_right
  intro a ha
  simp at ha ⊢
  exact ha.1

theorem C7_filtrado_testigo :
    (([1, 0, -1, -1] : List Int).filter (fun idx => decide (0 ≤ idx))).length ≤ 2
    ∧ ((contextos_recuperados [⟨0, "a.txt", ['x']⟩, ⟨1, "b.txt", ['y']⟩]
          [1, 0, -1, -1]).length
        = (([1, 0, -1, -1] : List Int).filter
            (fun idx => decide (0 ≤ idx ∧ idx < (2 : Int)))).length
       ∧ (contextos_recuperados [⟨0, "a.txt", ['x']⟩, ⟨1, "b.txt", ['y']⟩]
            [1, 0, -1, -1]).length ≤ 2
       ∧ ∀ b ∈ contextos_recuperados [⟨0, "a.txt", ['x']⟩, ⟨1, "b.txt", ['y']⟩]
            [1, 0, -1, -1],
           ∃ m ∈ [(⟨0, "a.txt", ['x']⟩ : Metadato), ⟨1, "b.txt", ['y']⟩],
             b = formatBlock m) :=
  ⟨by decide,
   C7_filtrado [⟨0, "a.txt", ['x']⟩, ⟨1, "b.txt", ['y']⟩] [1, 0, -1, -1] 2 (by decide)⟩

/-- C8 (counterexample): on one metadata record with source "doc.txt" and
text "hi", the assembled context block is "--- Fuente: doc.txt ---\nhi" —
the code labels the block "Fuente", not "Source" as the claim states. -/
theorem C8_contraejemplo :
    buscar_contexto [⟨0, "doc.txt", ['h', 'i']⟩] [0] = "--- Fuente: doc.txt ---\nhi"
    ∧ "--- Fuente: doc.txt ---\nhi" ≠ "--- Source: doc.txt ---\nhi" := by
  exact ⟨by decide, by decide⟩

/-- C8 (amended): for every retrieved valid index the corresponding chunk is
formatted as the labeled block "--- Fuente: <source> ---\n<text>" (the label
the code actually writes, instead of the claimed "--- Source: ..."), and the
context string returned by the retriever is the concatenation of all such
blocks separated by a blank line. -/
theorem C8_formato (metadatos : List Metadato) (I : List Int) :
    contextos_recuperados metadatos I
      = (I.filter (fun idx => decide (0 ≤ idx ∧ idx < (metadatos.length : Int)))).filterMap
          (fun idx => (metadatos[idx.toNat]?).map
            (fun chunk => "--- Fuente: " ++ chunk.fuente ++ " ---\n" ++ String.mk chunk.texto))
    ∧ buscar_contexto metadatos I
        = String.intercalate "\n\n" (contextos_recuperados metadatos I) := by
  refine ⟨?_, rfl⟩
  induction I with
  | nil => rfl
  | cons idx resto ih =>
      by_cases hv : 0 ≤ idx ∧ idx < (metadatos.length : Int)
      · have hlt : idx.toNat < metadatos.length := by omega
        have hsome : metadatos[idx.toNat]? = some metadatos[idx.toNat] :=
          List.getElem?_eq_getElem hlt
        rw [contextos_recuperados, if_pos hv,
          List.filter_cons_of_pos (by simpa using hv), List.filterMap_cons]
        simp only [hsome, Option.map_some']
        rw [ih]
        rfl
      · rw [contextos_recuperados, if_neg hv,
          List.filter_cons_of_neg (by simpa using hv), ih]

/-- `NOMBRE_CHAT_MODELO` (chat.py line 16). -/
def NOMBRE_CHAT_MODELO : String := "openai/gpt-oss-20b"

/-- The fixed system instruction of `generar_respuesta` (chat.py lines
89-93), with Pythons adjacent string literals joined. -/
def prompt_sistema : String :=
  "Eres un asistente de respuesta de preguntas que utiliza la información proporcionada en el Contexto para responder concisa y con precisión. Si la respuesta no está en el Contexto, indica claramente que no tienes suficiente información. NO inventes información."

/-- The user message of `generar_respuesta` (chat.py lines 95-98). -/
def prompt_usuario (pregunta contexto : String) : String :=
  "Contexto:\n---\n" ++ contexto ++ "\n---\n\nPregunta: " ++ pregunta

/-- The two-message chat request of `generar_respuesta` (chat.py lines
105-108), each message as (role, content). -/
def mensajes (pregunta contexto : String) : List (String × String) :=
  [("system", prompt_sistema), ("user", prompt_usuario pregunta contexto)]

/-- `generar_respuesta` (chat.py lines 85-113).  The external completion
service is modelled by its result on the request: `Except.ok` carrying the
message content, or `Except.error` carrying the exception text.  On success
the content is returned verbatim; on failure the marked error string is
returned instead of raising to the caller. -/
def generar_respuesta (servicio : List (String × String) → Except String String)
    (pregunta contexto : String) : String :=
  match servicio (mensajes pregunta contexto) with
  | Except.ok contenido => contenido
  | Except.error e =>
      "❌ ERROR al comunicarse con el LLM \x27" ++ NOMBRE_CHAT_MODELO
        ++ "\x27. Asegúrate que esté corriendo en LM Studio: " ++ e

/-- C9: if the completion-service call fails, the answer generator returns a
string beginning with the fixed error marker "❌ ERROR" instead of raising;
if the call succeeds, it returns the services text response verbatim. -/
theorem C9_marcador_error (servicio : List (String × String) → Except String String)
    (pregunta contexto : String) :
    (∀ e, servicio (mensajes pregunta contexto) = Except.error e →
       ∃ resto, generar_respuesta servicio pregunta contexto = "❌ ERROR" ++ resto)
    ∧ ∀ contenido, servicio (mensajes pregunta contexto) = Except.ok contenido →
       generar_respuesta servicio pregunta contexto = contenido := by
  constructor
  · intro e he
    refine ⟨" al comunicarse con el LLM \x27" ++ NOMBRE_CHAT_MODELO
      ++ "\x27. Asegúrate que esté corriendo en LM Studio: " ++ e, ?_⟩
    simp only [generar_respuesta, he]
    rfl
  · intro contenido hc
    simp only [generar_respuesta, hc]

theorem C9_marcador_error_testigo :
    (∃ resto, generar_respuesta (fun _ => Except.error "sin conexion") "q" "c"
       = "❌ ERROR" ++ resto)
    ∧ generar_respuesta (fun _ => Except.ok "hola") "q" "c" = "hola" :=
  ⟨(C9_marcador_error (fun _ => Except.error "sin conexion") "q" "c").1 "sin conexion" rfl,
   (C9_marcador_error (fun _ => Except.ok "hola") "q" "c").2 "hola" rfl⟩
